import Mathlib

/-!
Verification development for the `ccoin` inference layer
(`src/inference/src/gradient.py`, `src/inference/src/models.py`).

Shallow embedding conventions:
* Python `float` values are modelled as real numbers (`ℝ`); where a claim is
  about non-finite float values, the type `FloatVal` (a real number or one of
  `inf`, `-inf`, `nan`) is used instead.
* Python dicts that are only iterated/looked up are modelled as association
  lists (`List (String × _)`); a Python `dict` has no duplicate keys, so the
  theorems that depend on key uniqueness take a `Nodup` hypothesis on the keys.
* SHA-256 is a fixed function of the byte stream fed into the accumulator, so
  digests are modelled by that byte stream itself: two digests are equal iff
  the streams are equal (ignoring hash collisions, as is standard).
* `numpy.ndarray.tobytes` for a float64 element is modelled by an arbitrary
  fixed encoding function `enc : ℝ → List Nat`; a tensor serialises to the
  concatenation of its elements' encodings (row-major order is the flat list
  order).
* Wall-clock reads (`time.time()`) are threaded through as explicit integer
  parameters.
-/

set_option maxHeartbeats 1000000

namespace CCoin

/-- The `TrainingTask` dataclass (gradient.py lines 25-35). -/
structure TrainingTask where
  task_id : String
  model_id : String
  dataset_cid : String
  batch_start : Int
  batch_end : Int
  objective_hash : String
  deadline : Int
  reward : Int
  deriving DecidableEq, Repr

/-- The `TaskQueue` state (gradient.py lines 254-257): a pending list and the
single `active_task` slot. -/
structure TaskQueue where
  rpc_endpoint : String
  pending_tasks : List TrainingTask
  active_task : Option TrainingTask
  deriving DecidableEq, Repr

/-- Embedding of `TaskQueue.fetch_tasks` (gradient.py lines 259-263): returns the pending
list as-is; no deadline is consulted and nothing is evicted. -/
def TaskQueue.fetch_tasks (q : TaskQueue) : List TrainingTask :=
  q.pending_tasks

/-- Embedding of `TaskQueue.claim_task` (gradient.py lines 265-272): linear scan of
`pending_tasks` for the first task whose `task_id` matches; on a hit the task
is stored in `active_task` (overwriting whatever was there), removed from the
pending list (`list.remove` drops the first element equal to it) and returned;
otherwise `None` is returned and the queue is unchanged.  No deadline check is
performed. -/
def TaskQueue.claim_task (q : TaskQueue) (task_id : String) :
    Option TrainingTask × TaskQueue :=
  match q.pending_tasks.find? (fun t => t.task_id == task_id) with
  | some t =>
      (some t,
        { q with
          active_task := some t
          pending_tasks := q.pending_tasks.erase t })
  | none => (none, q)

/-- Embedding of `TaskQueue.submit_result` (gradient.py lines 274-278): unconditionally
clears `active_task` and returns `True`; the submitted result is not
inspected and no state is checked.  (The result argument is irrelevant to the
embedded behaviour, so it is not a parameter here; see the claims about
`ComputeResult` for the full record.) -/
def TaskQueue.submit_result (q : TaskQueue) : Bool × TaskQueue :=
  (true, { q with active_task := none })

/-- Embedding of `TaskQueue.add_task` (gradient.py lines 280-282). -/
def TaskQueue.add_task (q : TaskQueue) (t : TrainingTask) : TaskQueue :=
  { q with pending_tasks := q.pending_tasks ++ [t] }

/-! Concrete fixtures used by the queue claims. -/

/-- A task whose `deadline` (5) lies in the past relative to the reference
time `now = 10` used in the expiry claim. -/
def expiredTask : TrainingTask :=
  { task_id := "task_001"
    model_id := "test_model"
    dataset_cid := "ipfs://test"
    batch_start := 0
    batch_end := 32
    objective_hash := "abc123"
    deadline := 5
    reward := 1000 }

/-- A second distinct task, used where two tasks are needed. -/
def otherTask : TrainingTask :=
  { task_id := "task_002"
    model_id := "test_model"
    dataset_cid := "ipfs://test"
    batch_start := 32
    batch_end := 64
    objective_hash := "def456"
    deadline := 999999
    reward := 500 }

/-- A queue holding only `expiredTask`. -/
def queueWithExpired : TaskQueue :=
  { rpc_endpoint := "http://localhost:8545"
    pending_tasks := [expiredTask]
    active_task := none }

/-- C2: the code performs no deadline eviction at all.  With `now = 10` the
task with `deadline = 5` is expired, yet `fetch_tasks` still returns it and
`claim_task` still claims it — contradicting the specified lazy eviction and
`NotFound` answer. -/
theorem expired_task_visible_and_claimable :
    expiredTask.deadline < 10 ∧
    queueWithExpired.fetch_tasks = [expiredTask] ∧
    (queueWithExpired.claim_task "task_001").1 = some expiredTask := by
  decide

/-- C3: `submit_result` never fails.  Starting from a queue with no active
claim at all, a first submit returns `True` and a second submit for the same
task returns `True` again — the specified `InvalidState` failure (and the
"only when Claimed" precondition) is not implemented. -/
theorem double_submit_both_succeed :
    queueWithExpired.active_task = none ∧
    queueWithExpired.submit_result.1 = true ∧
    (queueWithExpired.submit_result.2.submit_result).1 = true := by
  decide

/-- C7: under the data-model invariant that `task_id` is unique among the
pending tasks, `claim_task` returns the pending task with the requested id and
removes it when one exists, returns `none` when none exists, and a second
claim of the same id after a first one always returns `none`. -/
theorem claim_task_spec (q : TaskQueue) (tid : String)
    (hnd : (q.pending_tasks.map TrainingTask.task_id).Nodup) :
    (∀ t, t ∈ q.pending_tasks → t.task_id = tid →
        (q.claim_task tid).1 = some t ∧ t ∉ (q.claim_task tid).2.pending_tasks) ∧
    ((∀ t, t ∈ q.pending_tasks → t.task_id ≠ tid) → (q.claim_task tid).1 = none) ∧
    ((q.claim_task tid).2.claim_task tid).1 = none := by
  have hinj := List.inj_on_of_nodup_map hnd
  have hnodup : q.pending_tasks.Nodup := List.Nodup.of_map _ hnd
  refine ⟨?_, ?_, ?_⟩
  · intro t ht htid
    cases hf : q.pending_tasks.find? (fun u => u.task_id == tid) with
    | none =>
        exfalso
        have := List.find?_eq_none.mp hf t ht
        simp [htid] at this
    | some u =>
        have hu_mem : u ∈ q.pending_tasks := List.mem_of_find?_eq_some hf
        have hu_id : u.task_id = tid := by
          have := List.find?_some hf
          simpa using this
        have hut : u = t := hinj hu_mem ht (by rw [hu_id, htid])
        subst hut
        constructor
        · simp [TaskQueue.claim_task, hf]
        · simp only [TaskQueue.claim_task, hf]
          exact hnodup.not_mem_erase
  · intro hnone
    have hf : q.pending_tasks.find? (fun u => u.task_id == tid) = none := by
      rw [List.find?_eq_none]
      intro u hu
      simp [hnone u hu]
    simp [TaskQueue.claim_task, hf]
  · cases hf : q.pending_tasks.find? (fun u => u.task_id == tid) with
    | none =>
        simp [TaskQueue.claim_task, hf]
    | some u =>
        have hu_mem : u ∈ q.pending_tasks := List.mem_of_find?_eq_some hf
        have hu_id : u.task_id = tid := by
          have := List.find?_some hf
          simpa using this
        have hf2 : (q.pending_tasks.erase u).find? (fun v => v.task_id == tid) = none := by
          rw [List.find?_eq_none]
          intro v hv
          have hv_mem : v ∈ q.pending_tasks := List.mem_of_mem_erase hv
          simp only [beq_iff_eq]
          intro hv_id
          have : v = u := hinj hv_mem hu_mem (by rw [hv_id, hu_id])
          subst this
          exact hnodup.not_mem_erase hv
        simp [TaskQueue.claim_task, hf, hf2]

/-- Witness for C7 on a concrete queue: the single pending task is claimed,
removed, and a repeated claim returns `none`. -/
theorem claim_task_spec_witness :
    (queueWithExpired.pending_tasks.map TrainingTask.task_id).Nodup ∧
    (queueWithExpired.claim_task "task_001").1 = some expiredTask ∧
    expiredTask ∉ (queueWithExpired.claim_task "task_001").2.pending_tasks ∧
    ((queueWithExpired.claim_task "task_001").2.claim_task "task_001").1 = none := by
  have h := claim_task_spec queueWithExpired "task_001" (by decide)
  exact ⟨by decide, (h.1 expiredTask (by decide) (by decide)).1,
    (h.1 expiredTask (by decide) (by decide)).2, h.2.2⟩

/-- C10: `active_task` is a single `Option` slot.  If some task `t1` is
currently claimed (held in `active_task`, no longer pending) and a claim for
another id succeeds, the slot is silently overwritten with the new task, and
`t1` is afterwards tracked nowhere: not in the pending list and no longer in
`active_task`; no error is reported (the claim still returns `some`). -/
theorem claim_overwrites_active_task (q : TaskQueue) (t1 t2 : TrainingTask)
    (tid : String) (_hactive : q.active_task = some t1)
    (hnotpending : t1 ∉ q.pending_tasks)
    (hclaim : (q.claim_task tid).1 = some t2) :
    (q.claim_task tid).2.active_task = some t2 ∧
    t1 ∉ (q.claim_task tid).2.pending_tasks ∧
    (t1 ≠ t2 → (q.claim_task tid).2.active_task ≠ some t1) := by
  cases hf : q.pending_tasks.find? (fun u => u.task_id == tid) with
  | none => simp [TaskQueue.claim_task, hf] at hclaim
  | some u =>
      have hu : u = t2 := by
        simpa [TaskQueue.claim_task, hf] using hclaim
      subst hu
      refine ⟨by simp [TaskQueue.claim_task, hf], ?_, ?_⟩
      · simp only [TaskQueue.claim_task, hf]
        intro hmem
        exact hnotpending (List.mem_of_mem_erase hmem)
      · intro hne
        simp [TaskQueue.claim_task, hf]
        exact fun h => hne h.symm

/-- A queue in which `otherTask` is currently claimed (held in `active_task`,
no longer pending) while `expiredTask` is still pending. -/
def queueBusy : TaskQueue :=
  { rpc_endpoint := "http://localhost:8545"
    pending_tasks := [expiredTask]
    active_task := some otherTask }

/-- Witness for C10: with `otherTask` claimed (held in `active_task`) and
`expiredTask` still pending, claiming `expiredTask`'s id succeeds and
`otherTask` disappears from all tracking. -/
theorem claim_overwrites_active_task_witness :
    queueBusy.active_task = some otherTask ∧
    otherTask ∉ queueBusy.pending_tasks ∧
    (queueBusy.claim_task "task_001").1 = some expiredTask ∧
    (queueBusy.claim_task "task_001").2.active_task = some expiredTask ∧
    otherTask ∉ (queueBusy.claim_task "task_001").2.pending_tasks := by
  have h := claim_overwrites_active_task queueBusy
    otherTask expiredTask "task_001" rfl (by decide) (by decide)
  exact ⟨rfl, by decide, by decide, h.1, h.2.1⟩

/-! ## Gradient hashing (`models.py`, `hash_gradients`, lines 218-227) -/

/-- A gradient tensor: the flat (row-major) list of its float elements,
modelled as reals. -/
abbrev Tensor := List ℝ

/-- The `Dict[str, torch.Tensor]` of named gradients, as an association list
in insertion order.  A Python dict has pairwise-distinct keys; theorems that
depend on this take it as a `Nodup` hypothesis on the mapped keys. -/
abbrev GradientMap := List (String × Tensor)

/-- UTF-8 bytes of a parameter name, as in `name.encode()`. -/
def strBytes (s : String) : List Nat :=
  s.toUTF8.toList.map (fun b => b.toNat)

/-- Embedding of `hash_gradients` (models.py lines 218-227): parameter names are sorted
lexicographically; for each name in sorted order the name's bytes and then
the raw bytes of its tensor (`grad.cpu().numpy().tobytes()`, modelled by the
fixed per-element encoding `enc`) are fed into one SHA-256 accumulator.  The
hex digest is a fixed function of the accumulated byte stream, so the digest
is modelled by that stream. -/
def hash_gradients (enc : ℝ → List Nat) (gradients : GradientMap) : List Nat :=
  (List.insertionSort (· ≤ ·) (gradients.map Prod.fst)).foldl
    (fun acc name =>
      acc ++ strBytes name ++ (((gradients.lookup name).getD []).flatMap enc))
    []

/-- Dict lookup (`gradients[name]`) is invariant under permuting an
association list whose keys are pairwise distinct. -/
theorem lookup_eq_of_perm {β : Type} {l l' : List (String × β)} (h : l.Perm l') :
    ∀ a : String, (l.map Prod.fst).Nodup → l.lookup a = l'.lookup a := by
  induction h with
  | nil => intro a _; rfl
  | cons x h ih =>
      intro a hnd
      simp only [List.map_cons, List.nodup_cons] at hnd
      cases hxa : a == x.1 with
      | true => simp [List.lookup, hxa]
      | false => simp [List.lookup, hxa, ih a hnd.2]
  | swap x y l =>
      intro a hnd
      simp only [List.map_cons, List.nodup_cons, List.mem_cons] at hnd
      have hxy : ¬ y.1 = x.1 := fun hyx => hnd.1 (Or.inl hyx)
      cases hay : a == y.1 with
      | true =>
          have hay' : a = y.1 := by simpa using hay
          have hax : (a == x.1) = false := by
            simp only [beq_eq_false_iff_ne, ne_eq]
            intro hax
            exact hxy (hay' ▸ hax)
          simp [List.lookup, hay, hax]
      | false =>
          cases hax : a == x.1 with
          | true => simp [List.lookup, hay, hax]
          | false => simp [List.lookup, hay, hax]
  | trans h₁ h₂ ih₁ ih₂ =>
      intro a hnd
      exact (ih₁ a hnd).trans (ih₂ a (((h₁.map Prod.fst).nodup_iff).mp hnd))

/-- C5: `hash_gradients` is deterministic and, for gradient maps with
pairwise-distinct parameter names (as every Python dict has), invariant under
any permutation of the entries: the digest depends only on the name → tensor
mapping's content, because names are processed in sorted order. -/
theorem hash_gradients_perm_invariant (enc : ℝ → List Nat)
    (g g' : GradientMap) (hperm : g.Perm g')
    (hnd : (g.map Prod.fst).Nodup) :
    hash_gradients enc g = hash_gradients enc g ∧
    hash_gradients enc g' = hash_gradients enc g := by
  refine ⟨rfl, ?_⟩
  have hkeys : (g'.map Prod.fst).Perm (g.map Prod.fst) := (hperm.map Prod.fst).symm
  have hsorted :
      List.insertionSort (· ≤ ·) (g'.map Prod.fst) =
        List.insertionSort (· ≤ ·) (g.map Prod.fst) :=
    List.eq_of_perm_of_sorted
      ((List.perm_insertionSort _ _).trans
        (hkeys.trans (List.perm_insertionSort _ _).symm))
      (List.sorted_insertionSort _ _) (List.sorted_insertionSort _ _)
  have hlookup : ∀ a : String, g'.lookup a = g.lookup a := fun a =>
    lookup_eq_of_perm hperm.symm a (((hperm.map Prod.fst).nodup_iff).mp hnd)
  unfold hash_gradients
  rw [hsorted]
  simp only [hlookup]

/-- A two-entry gradient map and the same map with its entries swapped. -/
def gMapA : GradientMap := [("layer1.weight", [1, 2]), ("layer1.bias", [3])]

/-- The map `gMapA` with its two entries in the opposite insertion order. -/
def gMapB : GradientMap := [("layer1.bias", [3]), ("layer1.weight", [1, 2])]

/-- A concrete stand-in for the float64 byte encoding in the C5 witness. -/
def encUnit : ℝ → List Nat := fun _ => [0]

/-- Witness for C5 at a concrete permuted pair of gradient maps. -/
theorem hash_gradients_perm_invariant_witness :
    gMapA.Perm gMapB ∧ (gMapA.map Prod.fst).Nodup ∧
    (hash_gradients encUnit gMapA = hash_gradients encUnit gMapA ∧
      hash_gradients encUnit gMapB = hash_gradients encUnit gMapA) :=
  ⟨List.Perm.swap _ _ _, by decide,
    hash_gradients_perm_invariant encUnit gMapA gMapB
      (List.Perm.swap _ _ _) (by decide)⟩

/-! ## Gradient quality scoring (`models.py`, `compute_gradient_quality`,
lines 230-266), with Python floats modelled as reals. -/

/-- The L2 norm of a tensor, as in `grad.norm().item()`. -/
noncomputable def tensorNorm (t : Tensor) : ℝ :=
  Real.sqrt ((t.map (fun x => x ^ 2)).sum)

/-- The magnitude sub-score as a function of `total_norm` (models.py lines
250-256): `1` inside the ideal range `[0.1, 10]`, a linear ramp below it, a
linear decay floored at `0` above it. -/
noncomputable def magnitudeScore (t : ℝ) : ℝ :=
  if 0.1 ≤ t ∧ t ≤ 10 then 1
  else if t < 0.1 then t / 0.1
  else max 0 (1 - (t - 10) / 100)

/-- Embedding of `compute_gradient_quality` (models.py lines 230-266), transcribed
line-for-line: `total_norm` accumulates `grad.norm().item() ** 2` over the
tensors and is then raised to `0.5` (`Real.sqrt`, the sum being a sum of
squares and hence nonnegative); the magnitude sub-score branches exactly as
the code does; when `prev_loss` is present and positive an improvement
sub-score is appended; the result is `sum(scores) / len(scores)`. -/
noncomputable def compute_gradient_quality (gradients : GradientMap)
    (loss : ℝ) (prev_loss : Option ℝ) : ℝ :=
  let total_norm : ℝ :=
    Real.sqrt ((gradients.map (fun p => tensorNorm p.2 ^ 2)).sum)
  let scores : List ℝ :=
    [magnitudeScore total_norm] ++
      (match prev_loss with
        | some pl =>
            if 0 < pl then [min 1 (max 0 ((pl - loss) / pl + 0.5))] else []
        | none => [])
  scores.sum / (scores.length : ℝ)

/-- The scoring algorithm exactly as the claim (spec §4.3) words it: the
magnitude sub-score is `total_norm / 0.1` when `total_norm < 0.1`, `1` when
`0.1 ≤ total_norm ≤ 10` and `max 0 (1 - (total_norm - 10) / 100)` otherwise;
when `prev_loss` is provided and positive the improvement sub-score
`min 1 (max 0 ((prev_loss - loss) / prev_loss + 0.5))` is added; the result
is the arithmetic mean of the computed sub-scores (one or two). -/
noncomputable def quality_spec (gradients : GradientMap)
    (loss : ℝ) (prev_loss : Option ℝ) : ℝ :=
  let total_norm : ℝ :=
    Real.sqrt ((gradients.map (fun p => tensorNorm p.2 ^ 2)).sum)
  let magnitude : ℝ :=
    if total_norm < 0.1 then total_norm / 0.1
    else if 0.1 ≤ total_norm ∧ total_norm ≤ 10 then 1
    else max 0 (1 - (total_norm - 10) / 100)
  match prev_loss with
  | some pl =>
      if 0 < pl then
        (magnitude + min 1 (max 0 ((pl - loss) / pl + 0.5))) / 2
      else magnitude
  | none => magnitude

/-- The code's branch order (range test first) and the spec's wording (ramp
test first) select the same magnitude sub-score. -/
theorem magnitudeScore_eq_spec_order (t : ℝ) :
    magnitudeScore t =
      (if t < 0.1 then t / 0.1
        else if 0.1 ≤ t ∧ t ≤ 10 then 1
        else max 0 (1 - (t - 10) / 100)) := by
  unfold magnitudeScore
  split_ifs with h1 h2 <;> try rfl
  exact absurd h2 (not_lt.mpr h1.1)

/-- C4: the implemented scorer agrees with the reference definition stated in
the spec, for every gradient map, loss, and optional previous loss. -/
theorem compute_gradient_quality_eq_spec (gradients : GradientMap)
    (loss : ℝ) (prev_loss : Option ℝ) :
    compute_gradient_quality gradients loss prev_loss =
      quality_spec gradients loss prev_loss := by
  cases prev_loss with
  | none =>
      simp [compute_gradient_quality, quality_spec, magnitudeScore_eq_spec_order]
  | some pl =>
      by_cases hpl : 0 < pl
      · simp only [compute_gradient_quality, quality_spec,
          magnitudeScore_eq_spec_order, if_pos hpl, List.singleton_append,
          List.sum_cons, List.sum_nil, List.length_cons, List.length_nil]
        push_cast
        ring
      · simp [compute_gradient_quality, quality_spec,
          magnitudeScore_eq_spec_order, if_neg hpl]

/-- The magnitude sub-score lies in `[0, 1]` for every nonnegative norm. -/
theorem magnitudeScore_bounds (t : ℝ) (ht : 0 ≤ t) :
    0 ≤ magnitudeScore t ∧ magnitudeScore t ≤ 1 := by
  unfold magnitudeScore
  split_ifs with h1 h2
  · norm_num
  · constructor
    · positivity
    · rw [div_le_one (by norm_num)]
      linarith
  · have h01 : (0.1 : ℝ) ≤ t := le_of_not_lt h2
    have h10 : (10 : ℝ) < t := lt_of_not_le fun hle => h1 ⟨h01, hle⟩
    constructor
    · exact le_max_left 0 _
    · exact max_le (by norm_num) (by linarith)

/-- The improvement sub-score `min 1 (max 0 x)` lies in `[0, 1]`. -/
theorem improvementScore_bounds (x : ℝ) :
    0 ≤ min 1 (max 0 x) ∧ min 1 (max 0 x) ≤ 1 :=
  ⟨le_min (by norm_num) (le_max_left 0 x), min_le_left 1 _⟩

/-- C8: the quality score lies in the closed interval `[0, 1]` for every
gradient map, loss, and optional previous loss. -/
theorem compute_gradient_quality_in_unit_interval (gradients : GradientMap)
    (loss : ℝ) (prev_loss : Option ℝ) :
    0 ≤ compute_gradient_quality gradients loss prev_loss ∧
      compute_gradient_quality gradients loss prev_loss ≤ 1 := by
  obtain ⟨hm0, hm1⟩ :=
    magnitudeScore_bounds
      (Real.sqrt ((gradients.map (fun p => tensorNorm p.2 ^ 2)).sum))
      (Real.sqrt_nonneg _)
  cases prev_loss with
  | none =>
      simp only [compute_gradient_quality, List.append_nil, List.sum_cons,
        List.sum_nil, List.length_cons, List.length_nil]
      norm_num
      exact ⟨hm0, hm1⟩
  | some pl =>
      by_cases hpl : 0 < pl
      · obtain ⟨hi0, hi1⟩ := improvementScore_bounds ((pl - loss) / pl + 0.5)
        simp only [compute_gradient_quality, if_pos hpl,
          List.singleton_append, List.sum_cons, List.sum_nil,
          List.length_cons, List.length_nil]
        push_cast
        constructor
        · apply div_nonneg (by linarith) (by norm_num)
        · rw [div_le_one (by norm_num)]
          linarith
      · simp only [compute_gradient_quality, if_neg hpl, List.append_nil,
          List.sum_cons, List.sum_nil, List.length_cons, List.length_nil]
        norm_num
        exact ⟨hm0, hm1⟩

/-! ## Python floats with non-finite values, proof generation and
verification, and the `GradientComputer.compute_gradients` orchestration
(gradient.py lines 73-150, 194-246). -/

/-- Model of a Python float: a real number or one of the non-finite IEEE
values.  Finite arithmetic is real arithmetic (rounding is not modelled);
the non-finite values follow IEEE-754 propagation. -/
inductive FloatVal where
  | fin : ℝ → FloatVal
  | inf : FloatVal
  | ninf : FloatVal
  | nan : FloatVal

namespace FloatVal

/-- IEEE addition on Python floats. -/
noncomputable def add : FloatVal → FloatVal → FloatVal
  | fin x, fin y => fin (x + y)
  | fin _, inf => inf
  | fin _, ninf => ninf
  | inf, fin _ => inf
  | inf, inf => inf
  | ninf, fin _ => ninf
  | ninf, ninf => ninf
  | _, _ => nan

/-- IEEE subtraction on Python floats. -/
noncomputable def sub : FloatVal → FloatVal → FloatVal
  | fin x, fin y => fin (x - y)
  | fin _, inf => ninf
  | fin _, ninf => inf
  | inf, fin _ => inf
  | inf, ninf => inf
  | ninf, fin _ => ninf
  | ninf, inf => ninf
  | _, _ => nan

/-- IEEE division on Python floats.  Division by exact zero raises
`ZeroDivisionError` in Python; it is unreachable under the positivity guard
in the scorer and is mapped to `nan` here. -/
noncomputable def div : FloatVal → FloatVal → FloatVal
  | fin x, fin y => if y = 0 then nan else fin (x / y)
  | fin _, inf => fin 0
  | fin _, ninf => fin 0
  | inf, fin y => if y = 0 then nan else if 0 < y then inf else ninf
  | ninf, fin y => if y = 0 then nan else if 0 < y then ninf else inf
  | _, _ => nan

/-- Strict comparison on Python floats; every comparison involving `nan` is
false. -/
noncomputable def lt : FloatVal → FloatVal → Bool
  | fin x, fin y => decide (x < y)
  | fin _, inf => true
  | ninf, fin _ => true
  | ninf, inf => true
  | _, _ => false

/-- Non-strict comparison on Python floats; every comparison involving `nan`
is false. -/
noncomputable def le : FloatVal → FloatVal → Bool
  | fin x, fin y => decide (x ≤ y)
  | fin _, inf => true
  | ninf, fin _ => true
  | ninf, ninf => true
  | ninf, inf => true
  | inf, inf => true
  | _, _ => false

/-- CPython `max(a, x)`: the running value is replaced only when the next
argument compares strictly greater, so `max(a, nan) = a`. -/
noncomputable def pymax (a x : FloatVal) : FloatVal :=
  if lt a x then x else a

/-- CPython `min(a, x)`: the running value is replaced only when the next
argument compares strictly smaller, so `min(a, nan) = a`. -/
noncomputable def pymin (a x : FloatVal) : FloatVal :=
  if lt x a then x else a

@[simp] theorem add_fin (x y : ℝ) : add (fin x) (fin y) = fin (x + y) := rfl

@[simp] theorem sub_fin (x y : ℝ) : sub (fin x) (fin y) = fin (x - y) := rfl

theorem div_fin (x y : ℝ) (h : y ≠ 0) : div (fin x) (fin y) = fin (x / y) := by
  unfold div
  exact if_neg h

@[simp] theorem lt_fin (x y : ℝ) : lt (fin x) (fin y) = decide (x < y) := rfl

@[simp] theorem le_fin (x y : ℝ) : le (fin x) (fin y) = decide (x ≤ y) := rfl

/-- On finite floats, Python's `max` is the usual maximum. -/
theorem pymax_fin (x y : ℝ) : pymax (fin x) (fin y) = fin (max x y) := by
  unfold pymax
  rw [lt_fin]
  by_cases h : x < y
  · simp [h, max_eq_right h.le]
  · simp [h, max_eq_left (le_of_not_lt h)]

/-- On finite floats, Python's `min` is the usual minimum. -/
theorem pymin_fin (x y : ℝ) : pymin (fin x) (fin y) = fin (min y x) := by
  unfold pymin
  rw [lt_fin]
  by_cases h : y < x
  · simp [h, min_eq_left h.le]
  · simp [h, min_eq_right (le_of_not_lt h)]

end FloatVal

/-- Metric dictionaries (`Dict[str, float]`), as association lists over
possibly non-finite float values. -/
abbrev Metrics := List (String × FloatVal)

/-- Embedding of `compute_gradient_quality` exactly as it is invoked from
`GradientComputer.compute_gradients`: the loss values are Python floats
(possibly non-finite), the gradient tensors are the reals of the
`GradientMap`, and the improvement branch is evaluated with IEEE float
semantics including CPython's `min`/`max` treatment of `nan`.  On finite
inputs this agrees with `compute_gradient_quality` (see
`compute_gradient_quality_float_fin`). -/
noncomputable def compute_gradient_quality_float (gradients : GradientMap)
    (loss : FloatVal) (prev_loss : Option FloatVal) : FloatVal :=
  let total_norm : ℝ :=
    Real.sqrt ((gradients.map (fun p => tensorNorm p.2 ^ 2)).sum)
  let scores : List FloatVal :=
    [.fin (magnitudeScore total_norm)] ++
      (match prev_loss with
        | some pl =>
            if FloatVal.lt (.fin 0) pl then
              [FloatVal.pymin (.fin 1)
                (FloatVal.pymax (.fin 0)
                  (((pl.sub loss).div pl).add (.fin 0.5)))]
            else []
        | none => [])
  (scores.foldl FloatVal.add (.fin 0)).div (.fin (scores.length : ℝ))

/-- Sanity link between the two transcriptions of the scorer: on finite
inputs the float-semantics version computes exactly the real-semantics
score. -/
theorem compute_gradient_quality_float_fin (gradients : GradientMap)
    (loss : ℝ) (prev_loss : Option ℝ) :
    compute_gradient_quality_float gradients (.fin loss)
        (prev_loss.map FloatVal.fin) =
      .fin (compute_gradient_quality gradients loss prev_loss) := by
  cases prev_loss with
  | none =>
      simp only [compute_gradient_quality_float, compute_gradient_quality,
        Option.map_none', List.append_nil, List.foldl_cons, List.foldl_nil,
        List.length_cons, List.length_nil, FloatVal.add_fin,
        List.sum_cons, List.sum_nil]
      rw [FloatVal.div_fin _ _ (by norm_num)]
      norm_num
  | some pl =>
      by_cases hpl : (0 : ℝ) < pl
      · simp only [compute_gradient_quality_float, compute_gradient_quality,
          Option.map_some', FloatVal.lt_fin, decide_eq_true_eq, hpl, if_true,
          FloatVal.sub_fin, FloatVal.div_fin _ _ (ne_of_gt hpl),
          FloatVal.add_fin, FloatVal.pymax_fin, FloatVal.pymin_fin,
          List.singleton_append, List.foldl_cons, List.foldl_nil,
          List.length_cons, List.length_nil, List.sum_cons, List.sum_nil]
        rw [FloatVal.div_fin _ _ (by norm_num)]
        simp only [FloatVal.fin.injEq, min_comm]
        push_cast
        ring
      · simp only [compute_gradient_quality_float, compute_gradient_quality,
          Option.map_some', FloatVal.lt_fin, decide_eq_true_eq, hpl, if_false,
          List.append_nil, List.foldl_cons, List.foldl_nil,
          List.length_cons, List.length_nil, FloatVal.add_fin,
          List.sum_cons, List.sum_nil]
        rw [FloatVal.div_fin _ _ (by norm_num)]
        norm_num

/-- The canonical record committed to by `_generate_proof` (gradient.py
lines 194-221): `proof_data` holds `task_id`, `gradient_hash`,
`quality_score`, `metrics` and an integer timestamp.  The commitment is
`sha256(str(proof_data))`; `str` and SHA-256 are fixed functions of the
record, so the commitment is modelled by the record itself, and two
commitments' bytes are equal iff the records are equal (modulo hash
collisions, as is standard). -/
structure ProofRecord where
  task_id : String
  gradient_hash : List Nat
  quality_score : FloatVal
  metrics : Metrics
  timestamp : Int

/-- Embedding of `GradientComputer._generate_proof` (gradient.py lines
194-221); `now` models the `int(time.time())` read inside the function. -/
def generate_proof (task : TrainingTask) (gradient_hash : List Nat)
    (quality_score : FloatVal) (metrics : Metrics) (now : Int) : ProofRecord :=
  { task_id := task.task_id
    gradient_hash := gradient_hash
    quality_score := quality_score
    metrics := metrics
    timestamp := now }

/-- The `ComputeResult` dataclass (gradient.py lines 38-46). -/
structure ComputeResult where
  task_id : String
  gradient_hash : List Nat
  quality_score : FloatVal
  loss : FloatVal
  metrics : Metrics
  proof : ProofRecord

/-- Embedding of `GradientComputer.verify_result` (gradient.py lines
223-246): rejects a `task_id` mismatch, rejects a quality score outside
`[0, 1]` (Python chained float comparison), then recomputes the expected
proof — and returns `True` without ever comparing it to `result.proof`;
`now` models the wall clock read inside `_generate_proof` during
verification. -/
noncomputable def verify_result (result : ComputeResult)
    (task : TrainingTask) (now : Int) : Bool :=
  if result.task_id ≠ task.task_id then false
  else if !(FloatVal.le (.fin 0) result.quality_score &&
      FloatVal.le result.quality_score (.fin 1)) then false
  else
    let _expected_proof :=
      generate_proof task result.gradient_hash result.quality_score
        result.metrics now
    true

/-- A result for `expiredTask` whose supplied `proof` was committed at
timestamp `0`; verification at time `5` regenerates a commitment whose
record (hence whose SHA-256 bytes) differs. -/
noncomputable def resultStaleProof : ComputeResult :=
  { task_id := "task_001"
    gradient_hash := hash_gradients encUnit gMapA
    quality_score := .fin 0.5
    loss := .fin 0.25
    metrics := [("loss", .fin 0.25), ("compute_time", .fin 1)]
    proof := generate_proof expiredTask (hash_gradients encUnit gMapA)
      (.fin 0.5) [("loss", .fin 0.25), ("compute_time", .fin 1)] 0 }

/-- C1 (code bug): `verify_result` computes the expected proof but never
compares it to `result.proof`.  Here the task ids match, the quality score
is in `[0, 1]`, and the supplied proof differs from the regenerated
commitment — yet verification returns `true` where the claim requires
`false`. -/
theorem verify_result_ignores_proof_mismatch :
    resultStaleProof.task_id = expiredTask.task_id ∧
    resultStaleProof.proof ≠
      generate_proof expiredTask resultStaleProof.gradient_hash
        resultStaleProof.quality_score resultStaleProof.metrics 5 ∧
    verify_result resultStaleProof expiredTask 5 = true := by
  refine ⟨rfl, ?_, ?_⟩
  · intro h
    have h5 := congrArg ProofRecord.timestamp h
    simp [resultStaleProof, generate_proof] at h5
  · simp only [verify_result, resultStaleProof]
    rw [if_neg (by simp [expiredTask]), if_neg]
    simp only [FloatVal.le_fin, Bool.not_eq_true', Bool.and_eq_false_imp,
      decide_eq_true_eq, decide_eq_false_iff_not, not_not]
    norm_num

/-! ### `GradientComputer.compute_gradients` (gradient.py lines 73-150)

The torch collaborators excluded from the core by spec §1 (model execution,
`named_parameters`, and the tensor primitives inside `_compute_metrics`) are
modelled as an `ExecOut` record supplied to the orchestration; the registry
is the partial map behind `registry.load_model`. -/

/-- Outcome of the external model executor for one task: the collected
gradient map (`param.grad` per named parameter), the scalar `loss.item()`
(a Python float, possibly non-finite — no part of the code checks), and the
domain metrics computed by `_compute_metrics` from `outputs`/`targets`. -/
structure ExecOut where
  gradients : GradientMap
  loss : FloatVal
  base_metrics : Metrics

/-- Mutable state of a `GradientComputer` instance: `prev_loss` and
`current_task` (gradient.py lines 70-71). -/
structure GCState where
  prev_loss : Option FloatVal
  current_task : Option TrainingTask

/-- The only typed failure `compute_gradients` can raise: the `ValueError`
for a missing model (gradient.py lines 88-89).  There is no
`ComputationFailure` variant because the code has no corresponding path. -/
inductive GCError where
  | modelNotFound : String → GCError

/-- Embedding of `GradientComputer.compute_gradients` (gradient.py lines
73-150): fail if the registry has no model; otherwise score the executor's
gradients against the stored `prev_loss`, hash them, extend the executor's
metrics with `loss` and `compute_time = t1 - t0`, generate the proof, update
`prev_loss`/`current_task`, and return the `ComputeResult`.  The loss value
flows into the result unconditionally: no finiteness check exists anywhere
on this path. -/
noncomputable def compute_gradients (registry : String → Option Unit)
    (enc : ℝ → List Nat) (st : GCState) (task : TrainingTask) (ex : ExecOut)
    (t0 t1 : Int) : Except GCError (GCState × ComputeResult) :=
  match registry task.model_id with
  | none => .error (.modelNotFound task.model_id)
  | some _ =>
      let quality_score :=
        compute_gradient_quality_float ex.gradients ex.loss st.prev_loss
      let gradient_hash := hash_gradients enc ex.gradients
      let metrics :=
        ex.base_metrics ++
          [("loss", ex.loss), ("compute_time", .fin ((t1 : ℝ) - (t0 : ℝ)))]
      let proof := generate_proof task gradient_hash quality_score metrics t1
      .ok
        ({ prev_loss := some ex.loss, current_task := some task },
          { task_id := task.task_id
            gradient_hash := gradient_hash
            quality_score := quality_score
            loss := ex.loss
            metrics := metrics
            proof := proof })

/-- A registry containing exactly the model `"test_model"`. -/
def regTest : String → Option Unit :=
  fun m => if m = "test_model" then some () else none

/-- An executor outcome whose backward pass produced a `nan` loss. -/
def execNanLoss : ExecOut :=
  { gradients := [], loss := .nan, base_metrics := [] }

/-- C6 (code bug): `compute_gradients` contains no finiteness check.  With a
non-finite (`nan`) loss from the executor it does not raise any typed
failure; it returns a normal `ComputeResult` carrying the `nan` loss. -/
theorem compute_gradients_propagates_nonfinite_loss :
    (compute_gradients regTest encUnit ⟨none, none⟩ expiredTask execNanLoss
        0 1).map (fun p => p.2.loss) = .ok FloatVal.nan := rfl

/-- C9: after every successful `compute_gradients` call, the computer's
`prev_loss` equals the loss the call returned (which is the executor's
loss), for every prior state, task, executor outcome, and clock reading —
the update is unconditional and independent of task identity. -/
theorem compute_gradients_updates_prev_loss
    (registry : String → Option Unit) (enc : ℝ → List Nat) (st : GCState)
    (task : TrainingTask) (ex : ExecOut) (t0 t1 : Int) {st' : GCState}
    {r : ComputeResult}
    (h : compute_gradients registry enc st task ex t0 t1 = .ok (st', r)) :
    st'.prev_loss = some r.loss ∧ r.loss = ex.loss := by
  unfold compute_gradients at h
  cases hreg : registry task.model_id with
  | none =>
      rw [hreg] at h
      exact absurd h (by simp)
  | some u =>
      rw [hreg] at h
      simp only [Except.ok.injEq, Prod.mk.injEq] at h
      obtain ⟨hst, hr⟩ := h
      subst hst
      subst hr
      exact ⟨rfl, rfl⟩

/-- The computer state after the C9 witness call. -/
def stAfterNan : GCState :=
  { prev_loss := some .nan, current_task := some expiredTask }

/-- The result of the C9 witness call, written out in full. -/
noncomputable def resultNanLoss : ComputeResult :=
  { task_id := "task_001"
    gradient_hash := hash_gradients encUnit []
    quality_score := compute_gradient_quality_float [] .nan none
    loss := .nan
    metrics := [("loss", .nan), ("compute_time", .fin (((1 : Int) : ℝ) - ((0 : Int) : ℝ)))]
    proof := generate_proof expiredTask (hash_gradients encUnit [])
      (compute_gradient_quality_float [] .nan none)
      [("loss", .nan), ("compute_time", .fin (((1 : Int) : ℝ) - ((0 : Int) : ℝ)))] 1 }

/-- Witness for C9 on a concrete successful call. -/
theorem compute_gradients_updates_prev_loss_witness :
    compute_gradients regTest encUnit ⟨none, none⟩ expiredTask execNanLoss
        0 1 = .ok (stAfterNan, resultNanLoss) ∧
    stAfterNan.prev_loss = some resultNanLoss.loss :=
  ⟨rfl,
    (@compute_gradients_updates_prev_loss regTest encUnit ⟨none, none⟩
      expiredTask execNanLoss 0 1 stAfterNan resultNanLoss rfl).1⟩

end CCoin
